import Mathlib

/-!
Verification development for the `better-spotify-wrapped` repository.

The definitions below are a shallow embedding of the Python sources:
  * `src/classify_genres.py` — `JsonPrompt`, `LLMConnector.json_prompt`,
    `ClassifyGenreOutput.model_validate_json`, `classify_genres`;
  * `src/persistence.py` — `SpotifySongSpan.load_history`.

I/O is made explicit: the LLM backend (`ollama` `Client.chat`) is a parameter
`backend : List Message → Except String String`, where `Except.error`
models a raised transport exception (backend unreachable / malformed
transport response) and `Except.ok` carries the assistant response text.
`json_prompt` returns, besides the parsed output (`none` models Python
`None` on retry exhaustion), the final mutated `msgs` state of the prompt
object and the number of backend calls issued, so that the observable
effects of the Python code are visible to the theorems.
-/

namespace BetterSpotifyWrapped

/-- Message roles used by the ollama chat API. -/
inductive Role where
  | system
  | user
  | assistant
  deriving DecidableEq

/-- `ollama.Message`: a role plus text content. -/
structure Message where
  role : Role
  content : String
  deriving DecidableEq

/-- `JsonPrompt` (src/classify_genres.py lines 46–79): the stored
conversation plus the (unused by `build_prompt`) `system_prompt` field.
The `output_format` is fixed to `ClassifyGenreOutput` in this use, so its
schema descriptor is the constant `fieldsJson` below. -/
structure JsonPrompt where
  system_prompt : Option String
  msgs : List Message
  deriving DecidableEq

/-- `JsonPrompt.add_msg`. -/
def JsonPrompt.add_msg (p : JsonPrompt) (m : Message) : JsonPrompt :=
  { p with msgs := p.msgs ++ [m] }

/-- `json.dumps(ClassifyGenreOutput.fields())`: the schema descriptor of
`ClassifyGenreOutput` rendered as JSON (lines 169–174). -/
def fieldsJson : String :=
  "\x7b\"reason\": \"str\", \"fundamental_genre\": \"str\"\x7d"

/-- The system message content synthesized by `build_prompt`
(lines 72–75). -/
def system_msg_content : String :=
  "Do not output any markdown. Do not make any comments. Do not use escape characters.\n\nOutput nothing but a JSON in the following format: " ++ fieldsJson

/-- `JsonPrompt.build_prompt` (lines 71–79): prepend the synthesized
system message to the stored conversation; the stored state is not
touched. -/
def JsonPrompt.build_prompt (p : JsonPrompt) : List Message :=
  Message.mk Role.system system_msg_content :: p.msgs

/-! ### Response normalization (lines 118–120)

`while "\\&" in resp: resp = resp.replace("\\&", "&")` —
repeatedly replace every (leftmost, non-overlapping) occurrence of the
two-character sequence `\&` by `&` until none remains. -/

/-- Does the character list contain the two-character sequence `\&`?
(Python `"\\&" in resp`.) -/
def containsAmp : List Char → Bool
  | [] => false
  | [_] => false
  | c₁ :: c₂ :: rest => (c₁ = '\\' ∧ c₂ = '&' : Bool) || containsAmp (c₂ :: rest)

/-- One pass of Python `resp.replace("\\&", "&")`: replace every
leftmost, non-overlapping occurrence of `\&` by `&`. -/
def replaceAmpOnce : List Char → List Char
  | [] => []
  | [c] => [c]
  | c₁ :: c₂ :: rest =>
    if c₁ = '\\' ∧ c₂ = '&' then '&' :: replaceAmpOnce rest
    else c₁ :: replaceAmpOnce (c₂ :: rest)

/-- The `while` loop, with explicit fuel (the list length is enough fuel,
as every pass with an occurrence present strictly shrinks the list). -/
def normLoop : Nat → List Char → List Char
  | 0, s => s
  | fuel + 1, s => if containsAmp s then normLoop fuel (replaceAmpOnce s) else s

/-- The full normalization of lines 119–120 on strings. -/
def normalizeAmp (s : String) : String :=
  String.mk (normLoop s.data.length s.data)

/-! ### Brace-span extraction (lines 121–126)

`re.search("{[^}]*}", resp)`: the first `{` that has some `}` after it,
up to the first such `}`. -/

/-- Scan for the first `}`; return the consumed characters including it. -/
def spanToClose : List Char → Option (List Char)
  | [] => none
  | c :: rest =>
    if c = '}' then some ['}']
    else (spanToClose rest).map (fun body => c :: body)

/-- `re.search("{[^}]*}", s)`: find the first `{`, then take everything up
to and including the next `}`; `none` when the pattern does not occur.
(A later `{` can only match if the first one does: the pattern succeeds
at a `{` exactly when some `}` follows it.) -/
def extractBraceSpan : List Char → Option (List Char)
  | [] => none
  | c :: rest =>
    if c = '{' then (spanToClose rest).map (fun body => '{' :: body)
    else extractBraceSpan rest

/-! ### JSON parsing and validation (lines 127, 165–188)

`prompt.output_format.model_validate_json(resp)` invokes pydantic's JSON
parser followed by `ClassifyGenreOutput`'s overridden validation hook.
The extracted span is `{…}` with no inner `}` and both schema fields are
`str`, so pydantic's parser is modelled by a parser of flat JSON objects
whose keys and values are strings; anything else is a validation error
(which Python surfaces as a `ValueError`, triggering the retry path). -/

/-- Skip JSON whitespace. -/
def skipWs : List Char → List Char
  | c :: rest =>
    if c = ' ' ∨ c = '\n' ∨ c = '\t' ∨ c = '\r' then skipWs rest else c :: rest
  | [] => []

/-- Parse the body of a JSON string literal (the opening quote already
consumed); returns the decoded value and the remaining input. Escapes
beyond the common ones are out of the model and rejected. -/
def parseJStrAux (acc : List Char) : List Char → Option (String × List Char)
  | '"' :: rest => some (String.mk acc.reverse, rest)
  | '\\' :: e :: rest =>
    if e = '"' then parseJStrAux ('"' :: acc) rest
    else if e = '\\' then parseJStrAux ('\\' :: acc) rest
    else if e = '/' then parseJStrAux ('/' :: acc) rest
    else if e = 'n' then parseJStrAux ('\n' :: acc) rest
    else if e = 't' then parseJStrAux ('\t' :: acc) rest
    else if e = 'r' then parseJStrAux ('\r' :: acc) rest
    else none
  | c :: rest => if c = '\\' then none else parseJStrAux (c :: acc) rest
  | [] => none

/-- Parse `"key": "value"` pairs separated by `,` and ended by `}`; the
terminating `}` must be the end of the input (pydantic parses the whole
candidate span, nothing may trail it). Fuel bounds the recursion; each
pair consumes at least one character, so the input length is enough. -/
def parsePairs : Nat → List Char → Option (List (String × String))
  | _, [] => none
  | 0, _ => none
  | fuel + 1, s =>
    match s with
    | '"' :: rest =>
      match parseJStrAux [] rest with
      | none => none
      | some (key, rest₁) =>
        match skipWs rest₁ with
        | ':' :: rest₂ =>
          match skipWs rest₂ with
          | '"' :: rest₃ =>
            match parseJStrAux [] rest₃ with
            | none => none
            | some (val, rest₄) =>
              match skipWs rest₄ with
              | ',' :: rest₅ =>
                match parsePairs fuel (skipWs rest₅) with
                | none => none
                | some tl => some ((key, val) :: tl)
              | '}' :: rest₅ =>
                if skipWs rest₅ = [] then some [(key, val)] else none
              | _ => none
          | _ => none
        | _ => none
    | _ => none

/-- Parse a whole candidate span as a flat JSON object with string keys
and string values. -/
def parseJsonObj (s : List Char) : Option (List (String × String)) :=
  match skipWs s with
  | '{' :: rest =>
    match skipWs rest with
    | '}' :: rest₁ => if skipWs rest₁ = [] then some [] else none
    | rest₁ => parsePairs s.length rest₁
  | _ => none

/-- Python `json`/pydantic keep the last of duplicate keys. -/
def lookupField (pairs : List (String × String)) (k : String) : Option String :=
  ((pairs.filter (fun p => p.1 = k)).getLast?).map (fun p => p.2)

/-- The `ValueError` kinds raised inside the `try` block of
`json_prompt`: no brace span (line 125), a pydantic schema error
(line 184), or the closed-set domain error (line 187). -/
inductive ParseErr where
  | noJson
  | jsonError (msg : String)
  | invalidGenre (v : String) (allowed : List String)
  deriving DecidableEq

/-- Python `str` of a list of strings, as interpolated into the
line-187 error message (single-quoted elements). -/
def pyReprList (xs : List String) : String :=
  let q := String.singleton (Char.ofNat 39)
  "[" ++ String.intercalate ", " (xs.map (fun x => q ++ x ++ q)) ++ "]"

/-- `str(e)` for each error kind (lines 125 and 187; pydantic renders
its own message for schema errors). -/
def errText : ParseErr → String
  | ParseErr.noJson => "No JSON found in response."
  | ParseErr.jsonError m => m
  | ParseErr.invalidGenre v allowed =>
    "Invalid fundamental genre: " ++ v ++ ". Choose from " ++ pyReprList allowed

/-- `ClassifyGenreOutput` (lines 165–167). -/
structure ClassifyGenreOutput where
  reason : String
  fundamental_genre : String
  deriving DecidableEq

/-- Python `str.lower`, modelled for ASCII: lower-case every character
(this is `String.toLower` spelled as a structural map). -/
def strLower (s : String) : String := String.mk (s.data.map Char.toLower)

/-- Lines 185–187: lower-case the extracted value (`str.lower`) and
require literal membership in the configured set
`cfg.fundamental_genres` (here a parameter `genres`). -/
def validate_fundamental_genre (genres : List String) (v : String) :
    Except ParseErr String :=
  let lowered := strLower v
  if lowered ∈ genres then Except.ok lowered
  else Except.error (ParseErr.invalidGenre lowered genres)

/-- `ClassifyGenreOutput.model_validate_json` (lines 176–188): parse the
candidate span, require both schema fields, then run the domain hook. -/
def model_validate_json (genres : List String) (s : List Char) :
    Except ParseErr ClassifyGenreOutput :=
  match parseJsonObj s with
  | none => Except.error (ParseErr.jsonError "validation error for ClassifyGenreOutput")
  | some pairs =>
    match lookupField pairs "reason", lookupField pairs "fundamental_genre" with
    | some r, some f =>
      match validate_fundamental_genre genres f with
      | Except.ok lowered => Except.ok ⟨r, lowered⟩
      | Except.error e => Except.error e
    | _, _ => Except.error (ParseErr.jsonError "Field required")

/-- The whole `try` block of `json_prompt` (lines 117–127): normalize,
extract the brace span (raising `noJson` when absent), validate. -/
def parse_response (genres : List String) (resp : String) :
    Except ParseErr ClassifyGenreOutput :=
  match extractBraceSpan (normalizeAmp resp).data with
  | none => Except.error ParseErr.noJson
  | some span => model_validate_json genres span

/-! ### The retry loop `LLMConnector.json_prompt` (lines 99–135) -/

/-- The backquote character framing the quoted error text. -/
def backquote : String := String.singleton (Char.ofNat 96)

/-- The user-role correction message content of lines 130–132 (the error
text is framed by backquotes in the Python f-string). -/
def correction_content (e : String) : String :=
  "That did not work. Here is the error I get: " ++ backquote ++ e ++ backquote ++
    ". Please try again."

/-- Observable outcome of `json_prompt`: the final state of the mutated
prompt object, the number of backend (`cli.chat`) calls issued, and the
returned value (`none` is Python `None`, the exhausted-retries outcome). -/
structure JPResult where
  prompt : JsonPrompt
  calls : Nat
  output : Option ClassifyGenreOutput
  deriving DecidableEq

/-- `LLMConnector.json_prompt` (lines 99–135). `backend` models
`self.cli.chat(...).message.content`; `Except.error` is a raised
transport exception, which Python propagates uncaught (the `try` block
begins only after the chat call). On each received response the code
appends it as an assistant message, runs `parse_response`, and on a
`ValueError` appends the correction message and recurses with
`max_tries - 1`; `max_tries == 0` returns `None` with no I/O. -/
def json_prompt (backend : List Message → Except String String)
    (genres : List String) (prompt : JsonPrompt) :
    Nat → Except String JPResult
  | 0 => Except.ok ⟨prompt, 0, none⟩
  | n + 1 =>
    match backend prompt.build_prompt with
    | Except.error e => Except.error e
    | Except.ok resp =>
      let p₁ := prompt.add_msg ⟨Role.assistant, resp⟩
      match parse_response genres resp with
      | Except.ok out => Except.ok ⟨p₁, 1, some out⟩
      | Except.error err =>
        let p₂ := p₁.add_msg ⟨Role.user, correction_content (errText err)⟩
        match json_prompt backend genres p₂ n with
        | Except.error e => Except.error e
        | Except.ok r => Except.ok ⟨r.prompt, r.calls + 1, r.output⟩

/-- The wrapper applied to the recursive `json_prompt` call in the
failure branch: a transport error passes through, a normal outcome gets
one more backend call counted. -/
def bump : Except String JPResult → Except String JPResult
  | Except.error e => Except.error e
  | Except.ok r => Except.ok ⟨r.prompt, r.calls + 1, r.output⟩

/-- The role pattern of the messages appended by `k` rejected attempts:
`k` pairs of an assistant response and a user correction. -/
def retryRoles : Nat → List Role
  | 0 => []
  | k + 1 => Role.assistant :: Role.user :: retryRoles k

/-! ### The batch loop `classify_genres` (lines 191–225) -/

/-- Escape a string for `json.dumps` (the model covers quote and
backslash, the characters relevant here). -/
def jsonEscape (s : String) : String :=
  s.data.foldr
    (fun c acc =>
      (if c = '"' then "\\\"" else
       if c = '\\' then "\\\\" else String.singleton c) ++ acc) ""

/-- `json.dumps(xs, indent=2)` for a list of strings. -/
def jsonDumpsIndent2 (xs : List String) : String :=
  match xs with
  | [] => "[]"
  | _ =>
    "[\n  " ++
      String.intercalate ",\n  " (xs.map (fun x => "\"" ++ jsonEscape x ++ "\"")) ++
      "\n]"

/-- The initial user message content of lines 202–215. -/
def initial_content (fundamental_genres : List String) (genre : String) : String :=
  "You are tasked with classifying sub-genres of music into their respective fundamental genres.\n\nHere is a list of the fundamental genres:\n" ++
  jsonDumpsIndent2 fundamental_genres ++
  "\n\nYou must first give your reasoning for why the sub-genre belongs to the fundamental genre.\n\nThen, you must output the exact fundamental genre that the sub-genre belongs to. Do not change case or spelling.\n\nClassify the sub-genre: \"" ++
  genre ++ "\""

/-- The fresh `JsonPrompt` built for one genre (lines 194–217); the
`system_prompt` keyword argument evaluates to the empty string. -/
def initial_prompt (fundamental_genres : List String) (genre : String) : JsonPrompt :=
  ⟨some "", [⟨Role.user, initial_content fundamental_genres genre⟩]⟩

/-- Assignment `d[k] = v` on a Python dict that preserves insertion
order: an existing key keeps its position and gets the new value, a new
key is appended. -/
def dictInsert (d : List (String × Option String)) (k : String) (v : Option String) :
    List (String × Option String) :=
  if d.any (fun p => p.1 = k) then
    d.map (fun p => if p.1 = k then (k, v) else p)
  else d ++ [(k, v)]

/-- The keys of the dict, in order. -/
def dictKeys (d : List (String × Option String)) : List String :=
  d.map (fun p => p.1)

/-- The `for` loop body of `classify_genres` (lines 193–224), carrying
the accumulating dict: one `json_prompt` call per input genre with the
default retry budget 20; `None` results are recorded as an explicit
failure marker, successes record the extracted `fundamental_genre`. The
`llm.json_prompt(prompt)` call is not wrapped in any exception handler,
so a transport error propagates out of the loop (modelled by
`Except.error`). -/
def classifyGo (backend : List Message → Except String String)
    (fundamental_genres : List String) :
    List String → List (String × Option String) →
      Except String (List (String × Option String))
  | [], d => Except.ok d
  | genre :: rest, d =>
    match json_prompt backend fundamental_genres
        (initial_prompt fundamental_genres genre) 20 with
    | Except.error e => Except.error e
    | Except.ok r =>
      classifyGo backend fundamental_genres rest
        (dictInsert d genre ((r.output).map (fun o => o.fundamental_genre)))

/-- `classify_genres` (lines 191–225): run the loop over all input
genres starting from the empty dict. -/
def classify_genres (backend : List Message → Except String String)
    (all_genres fundamental_genres : List String) :
    Except String (List (String × Option String)) :=
  classifyGo backend fundamental_genres all_genres []

/-! ### `SpotifySongSpan.load_history` (src/persistence.py lines 35–68)

File-system reading and JSON decoding are I/O: the directory is given as
a list of `(filename, decoded records)` pairs in directory-listing
order. The code keeps `.json` files, concatenates their records, and
sorts by the `ts` field (Python's stable `list.sort` with key `x.ts`);
`dt.datetime` is totally ordered and modelled by `Nat`. -/

/-- `SpotifySongSpan` (the fields `load_history` and the claims touch;
`ts` models the `dt.datetime` timestamp). -/
structure SpotifySongSpan where
  ts : Nat
  platform : String
  ms_played : Nat
  conn_country : String
  master_metadata_track_name : Option String
  master_metadata_album_artist_name : Option String
  master_metadata_album_album_name : Option String
  spotify_track_uri : Option String
  shuffle : Bool
  skipped : Option Bool
  deriving DecidableEq

/-- `SpotifySongSpan.load_history` (lines 56–68). -/
def load_history (dir : List (String × List SpotifySongSpan)) : List SpotifySongSpan :=
  let files := dir.filter (fun f => f.1.endsWith ".json")
  let songs := (files.map (fun f => f.2)).flatten
  songs.mergeSort (fun a b => a.ts ≤ b.ts)

/-! ## Lemmas and claim theorems -/

theorem replaceAmpOnce_length_le : ∀ s : List Char, (replaceAmpOnce s).length ≤ s.length
  | [] => by simp [replaceAmpOnce]
  | [c] => by simp [replaceAmpOnce]
  | c₁ :: c₂ :: rest => by
    by_cases h : c₁ = '\\' ∧ c₂ = '&'
    · simp only [replaceAmpOnce, if_pos h, List.length_cons]
      have := replaceAmpOnce_length_le rest
      omega
    · simp only [replaceAmpOnce, if_neg h, List.length_cons]
      have := replaceAmpOnce_length_le (c₂ :: rest)
      simp only [List.length_cons] at this
      omega

theorem replaceAmpOnce_length_lt :
    ∀ s : List Char, containsAmp s = true → (replaceAmpOnce s).length < s.length
  | [], h => by simp [containsAmp] at h
  | [c], h => by simp [containsAmp] at h
  | c₁ :: c₂ :: rest, h => by
    by_cases hc : c₁ = '\\' ∧ c₂ = '&'
    · simp only [replaceAmpOnce, if_pos hc, List.length_cons]
      have := replaceAmpOnce_length_le rest
      omega
    · have hrest : containsAmp (c₂ :: rest) = true := by
        simp only [containsAmp, Bool.or_eq_true, decide_eq_true_eq] at h
        rcases h with h | h
        · exact absurd h hc
        · exact h
      simp only [replaceAmpOnce, if_neg hc, List.length_cons]
      have := replaceAmpOnce_length_lt (c₂ :: rest) hrest
      simp only [List.length_cons] at this
      omega

theorem normLoop_of_clean (fuel : Nat) (s : List Char) (h : containsAmp s = false) :
    normLoop fuel s = s := by
  cases fuel with
  | zero => rfl
  | succ n => simp [normLoop, h]

theorem containsAmp_normLoop :
    ∀ (fuel : Nat) (s : List Char), s.length ≤ fuel → containsAmp (normLoop fuel s) = false := by
  intro fuel
  induction fuel with
  | zero =>
    intro s hs
    have : s = [] := List.length_eq_zero.mp (Nat.le_zero.mp hs)
    subst this
    rfl
  | succ n ih =>
    intro s hs
    by_cases h : containsAmp s = true
    · have hlt := replaceAmpOnce_length_lt s h
      have : (replaceAmpOnce s).length ≤ n := by omega
      simp only [normLoop, h, if_true]
      exact ih _ this
    · simp only [Bool.not_eq_true] at h
      rw [normLoop_of_clean _ _ h]
      exact h

/-- After normalization, no occurrence of the two-character sequence
remains. -/
theorem containsAmp_normalizeAmp (s : String) :
    containsAmp (normalizeAmp s).data = false := by
  have := containsAmp_normLoop s.data.length s.data (Nat.le_refl _)
  simpa [normalizeAmp] using this

theorem normalizeAmp_of_clean (s : String) (h : containsAmp s.data = false) :
    normalizeAmp s = s := by
  simp [normalizeAmp, normLoop_of_clean _ _ h]

/-- **C5.** Response normalization repeatedly replaces `\&` by `&` until
no occurrence remains: the string `\&\&text\&` normalizes to `&&text&`;
the result never contains `\&`; and on a string with no `\&` occurrence
normalization returns the string unchanged (hence it is idempotent). -/
theorem c5_normalization :
    normalizeAmp "\\&\\&text\\&" = "&&text&" ∧
    (∀ s : String, containsAmp (normalizeAmp s).data = false) ∧
    (∀ s : String, containsAmp s.data = false → normalizeAmp s = s) := by
  refine ⟨by decide, containsAmp_normalizeAmp, normalizeAmp_of_clean⟩

/-- Witness for C5: normalization leaves the clean string `a&b` (and the
already-normalized result of the example) unchanged. -/
theorem c5_normalization_witness :
    containsAmp "a&b".data = false ∧ normalizeAmp "a&b" = "a&b" :=
  ⟨by decide, c5_normalization.2.2 "a&b" (by decide)⟩

theorem spanToClose_append (b c : List Char) (hb : '}' ∉ b) :
    spanToClose (b ++ '}' :: c) = some (b ++ ['}']) := by
  induction b with
  | nil => simp [spanToClose]
  | cons x b ih =>
    have hx : x ≠ '}' := fun h => hb (h ▸ List.mem_cons_self x b)
    have hb' : '}' ∉ b := fun h => hb (List.mem_cons_of_mem x h)
    simp [spanToClose, hx, ih hb']

theorem spanToClose_some :
    ∀ s body : List Char, spanToClose s = some body →
      ∃ b c, s = b ++ '}' :: c ∧ '}' ∉ b ∧ body = b ++ ['}']
  | [], body, h => by simp [spanToClose] at h
  | x :: rest, body, h => by
    by_cases hx : x = '}'
    · subst hx
      have hs : spanToClose ('}' :: rest) = some ['}'] := by simp [spanToClose]
      rw [hs] at h
      injection h with h
      exact ⟨[], rest, rfl, by simp, by simpa using h.symm⟩
    · simp only [spanToClose, if_neg hx, Option.map_eq_some'] at h
      obtain ⟨body', h', rfl⟩ := h
      obtain ⟨b, c, rfl, hb, rfl⟩ := spanToClose_some rest body' h'
      refine ⟨x :: b, c, rfl, ?_, rfl⟩
      simp only [List.mem_cons, not_or]
      exact ⟨fun h => hx h.symm, hb⟩

theorem extractBraceSpan_append (a b c : List Char) (ha : '{' ∉ a) (hb : '}' ∉ b) :
    extractBraceSpan (a ++ '{' :: (b ++ '}' :: c)) = some ('{' :: (b ++ ['}'])) := by
  induction a with
  | nil => simp [extractBraceSpan, spanToClose_append b c hb]
  | cons x a ih =>
    have hx : x ≠ '{' := fun h => ha (h ▸ List.mem_cons_self x a)
    have ha' : '{' ∉ a := fun h => ha (List.mem_cons_of_mem x h)
    rw [List.cons_append]
    simp only [extractBraceSpan, if_neg hx]
    exact ih ha'

theorem extractBraceSpan_some :
    ∀ s t : List Char, extractBraceSpan s = some t →
      ∃ a b c, s = a ++ '{' :: (b ++ '}' :: c) ∧ '{' ∉ a ∧ '}' ∉ b ∧
        t = '{' :: (b ++ ['}'])
  | [], t, h => by simp [extractBraceSpan] at h
  | x :: rest, t, h => by
    by_cases hx : x = '{'
    · subst hx
      have hu : extractBraceSpan ('{' :: rest) =
          (spanToClose rest).map (fun body => '{' :: body) := by
        simp [extractBraceSpan]
      rw [hu, Option.map_eq_some'] at h
      obtain ⟨body, h', rfl⟩ := h
      obtain ⟨b, c, rfl, hb, rfl⟩ := spanToClose_some rest body h'
      exact ⟨[], b, c, rfl, by simp, hb, rfl⟩
    · simp only [extractBraceSpan, if_neg hx] at h
      obtain ⟨a, b, c, rfl, ha, hb, rfl⟩ := extractBraceSpan_some rest t h
      refine ⟨x :: a, b, c, rfl, ?_, hb, rfl⟩
      simp only [List.mem_cons, not_or]
      exact ⟨fun h => hx h.symm, ha⟩

theorem extractBraceSpan_none (s : List Char)
    (h : ¬ ∃ a b c : List Char, s = a ++ '{' :: (b ++ '}' :: c)) :
    extractBraceSpan s = none := by
  cases he : extractBraceSpan s with
  | none => rfl
  | some t =>
    obtain ⟨a, b, c, rfl, -, -, -⟩ := extractBraceSpan_some s t he
    exact absurd ⟨a, b, c, rfl⟩ h

/-- **C6.** Candidate-JSON extraction takes the span from the first `{`
to the next `}` (non-greedy, non-nested); when the normalized response
admits no brace-bounded span at all, the attempt is a parse failure
(the `No JSON found` error), never a success. -/
theorem c6_brace_extraction :
    (∀ a b c : List Char, '{' ∉ a → '}' ∉ b →
      extractBraceSpan (a ++ '{' :: (b ++ '}' :: c)) = some ('{' :: (b ++ ['}']))) ∧
    (∀ s : List Char, (¬ ∃ a b c : List Char, s = a ++ '{' :: (b ++ '}' :: c)) →
      extractBraceSpan s = none) ∧
    (∀ (genres : List String) (resp : String),
      extractBraceSpan (normalizeAmp resp).data = none →
      parse_response genres resp = Except.error ParseErr.noJson) := by
  refine ⟨extractBraceSpan_append, extractBraceSpan_none, ?_⟩
  intro genres resp h
  simp [parse_response, h]

/-- Witness for C6: the span of `ab{x}y` and the parse failure on a
brace-free response. -/
theorem c6_brace_extraction_witness :
    extractBraceSpan ("ab".data ++ '{' :: ("x".data ++ '}' :: "y".data)) =
      some ('{' :: ("x".data ++ ['}'])) ∧
    parse_response ["rock"] "no json here" = Except.error ParseErr.noJson :=
  ⟨c6_brace_extraction.1 "ab".data "x".data "y".data (by decide) (by decide),
   c6_brace_extraction.2.2 ["rock"] "no json here" (by decide)⟩

theorem retryRoles_length : ∀ k : Nat, (retryRoles k).length = 2 * k
  | 0 => rfl
  | k + 1 => by simp [retryRoles, retryRoles_length k]; omega

/-- A run in which every backend response fails to parse: the loop makes
exactly `n` calls, returns `none`, and appends one assistant message and
one user correction per attempt. -/
theorem json_prompt_all_fail (backend : List Message → Except String String)
    (genres : List String)
    (H : ∀ msgs, ∃ r, backend msgs = Except.ok r ∧
      ∃ e, parse_response genres r = Except.error e) :
    ∀ (n : Nat) (p : JsonPrompt), ∃ t : List Message,
      json_prompt backend genres p n =
        Except.ok ⟨⟨p.system_prompt, p.msgs ++ t⟩, n, none⟩ ∧
      t.map Message.role = retryRoles n := by
  intro n
  induction n with
  | zero =>
    intro p
    exact ⟨[], by simp [json_prompt], by simp [retryRoles]⟩
  | succ n ih =>
    intro p
    obtain ⟨r, hb, e, hp⟩ := H p.build_prompt
    obtain ⟨t', ht', hr'⟩ := ih (JsonPrompt.mk p.system_prompt
      (p.msgs ++ [⟨Role.assistant, r⟩, ⟨Role.user, correction_content (errText e)⟩]))
    refine ⟨⟨Role.assistant, r⟩ :: ⟨Role.user, correction_content (errText e)⟩ :: t', ?_, ?_⟩
    · simp only [json_prompt, hb, hp, JsonPrompt.add_msg, List.append_assoc,
        List.cons_append, List.nil_append] at ht' ⊢
      rw [ht']
    · simp [hr', retryRoles]

/-- **C1.** With retry budget 0, `json_prompt` returns `None` at once,
making 0 backend calls; with budget `N > 0` and every backend response
unparsable, exactly `N` backend calls are made and then `None` is
returned. -/
theorem c1_retry_budget :
    (∀ (backend : List Message → Except String String) (genres : List String)
      (p : JsonPrompt),
      json_prompt backend genres p 0 = Except.ok ⟨p, 0, none⟩) ∧
    (∀ (backend : List Message → Except String String) (genres : List String)
      (p : JsonPrompt) (N : Nat), 0 < N →
      (∀ msgs, ∃ r, backend msgs = Except.ok r ∧
        ∃ e, parse_response genres r = Except.error e) →
      ∃ p', json_prompt backend genres p N = Except.ok ⟨p', N, none⟩) := by
  constructor
  · intro backend genres p
    rfl
  · intro backend genres p N _ H
    obtain ⟨t, ht, -⟩ := json_prompt_all_fail backend genres H N p
    exact ⟨⟨p.system_prompt, p.msgs ++ t⟩, ht⟩

/-- Witness for C1: a concrete always-unparsable backend, budgets 0
and 3. -/
theorem c1_retry_budget_witness :
    json_prompt (fun _ => Except.ok "no braces") ["rock"] ⟨some "", []⟩ 0 =
      Except.ok ⟨⟨some "", []⟩, 0, none⟩ ∧
    ∃ p', json_prompt (fun _ => Except.ok "no braces") ["rock"] ⟨some "", []⟩ 3 =
      Except.ok ⟨p', 3, none⟩ :=
  ⟨c1_retry_budget.1 _ _ _,
   c1_retry_budget.2 _ _ _ 3 (by decide)
     (fun _ => ⟨"no braces", rfl, ParseErr.noJson, rfl⟩)⟩

/-- **C8.** Starting from a single initial user message, a run of `k`
rejected attempts leaves the stored conversation at length `1 + 2k`,
grown only by appending one assistant response and one user correction
per attempt. -/
theorem c8_conversation_growth :
    ∀ (backend : List Message → Except String String) (genres : List String)
      (p : JsonPrompt), p.msgs.length = 1 →
      (∀ msgs, ∃ r, backend msgs = Except.ok r ∧
        ∃ e, parse_response genres r = Except.error e) →
      ∀ k : Nat, ∃ t : List Message,
        json_prompt backend genres p k =
          Except.ok ⟨⟨p.system_prompt, p.msgs ++ t⟩, k, none⟩ ∧
        (p.msgs ++ t).length = 1 + 2 * k ∧
        t.map Message.role = retryRoles k := by
  intro backend genres p hlen H k
  obtain ⟨t, ht, hr⟩ := json_prompt_all_fail backend genres H k p
  refine ⟨t, ht, ?_, hr⟩
  have : t.length = 2 * k := by
    have := congrArg List.length hr
    simpa [retryRoles_length] using this
  simp [hlen, this]

/-- Witness for C8: budget 2, an always-unparsable backend, one initial
user message; the final conversation has 5 messages. -/
theorem c8_conversation_growth_witness :
    ∃ t : List Message,
      json_prompt (fun _ => Except.ok "nope") ["rock"]
        ⟨some "", [⟨Role.user, "hi"⟩]⟩ 2 =
        Except.ok ⟨⟨some "", [⟨Role.user, "hi"⟩] ++ t⟩, 2, none⟩ ∧
      (([⟨Role.user, "hi"⟩] : List Message) ++ t).length = 1 + 2 * 2 ∧
      t.map Message.role = retryRoles 2 :=
  c8_conversation_growth (fun _ => Except.ok "nope") ["rock"]
    ⟨some "", [⟨Role.user, "hi"⟩]⟩ rfl
    (fun _ => ⟨"nope", rfl, ParseErr.noJson, rfl⟩) 2

/-- **C7.** On a parse or domain-validation failure the loop appends
exactly one assistant message and one user correction quoting the error
text, and recurses with the budget decremented by exactly 1 (one backend
call consumed, counted by `bump`); for a closed-set membership failure
the correction text includes the literal rejected value. -/
theorem c7_correction_step :
    ∀ (backend : List Message → Except String String) (genres : List String)
      (p : JsonPrompt) (n : Nat) (resp : String) (err : ParseErr),
      backend p.build_prompt = Except.ok resp →
      parse_response genres resp = Except.error err →
      (json_prompt backend genres p (n + 1) =
        bump (json_prompt backend genres
          ⟨p.system_prompt,
            p.msgs ++ [⟨Role.assistant, resp⟩,
              ⟨Role.user, correction_content (errText err)⟩]⟩ n)) ∧
      (∀ (v : String) (allowed : List String), err = ParseErr.invalidGenre v allowed →
        ∃ a b : List Char,
          (correction_content (errText err)).data = a ++ v.data ++ b) := by
  intro backend genres p n resp err hb hp
  constructor
  · simp only [json_prompt, hb, hp, JsonPrompt.add_msg, List.append_assoc,
      List.cons_append, List.nil_append]
    cases hjs : json_prompt backend genres
        ⟨p.system_prompt,
          p.msgs ++ [⟨Role.assistant, resp⟩,
            ⟨Role.user, correction_content (errText err)⟩]⟩ n with
    | error e => simp [bump]
    | ok r => simp [bump]
  · intro v allowed he
    subst he
    refine ⟨("That did not work. Here is the error I get: " ++ backquote ++
        "Invalid fundamental genre: ").data,
      (". Choose from " ++ pyReprList allowed ++ backquote ++
        ". Please try again.").data, ?_⟩
    simp [correction_content, errText]

/-- Witness for C7: the permitted set is `[rock, pop]` and the response
names `jazz`; the correction text contains `jazz`. -/
theorem c7_correction_step_witness :
    (json_prompt (fun _ => Except.ok "\x7b\"reason\": \"x\", \"fundamental_genre\": \"jazz\"\x7d")
      ["rock", "pop"] ⟨some "", [⟨Role.user, "hi"⟩]⟩ (0 + 1) =
      bump (json_prompt (fun _ => Except.ok "\x7b\"reason\": \"x\", \"fundamental_genre\": \"jazz\"\x7d")
        ["rock", "pop"]
        ⟨some "",
          [⟨Role.user, "hi"⟩] ++
            [⟨Role.assistant, "\x7b\"reason\": \"x\", \"fundamental_genre\": \"jazz\"\x7d"⟩,
              ⟨Role.user, correction_content
                (errText (ParseErr.invalidGenre "jazz" ["rock", "pop"]))⟩]⟩ 0)) ∧
    (∀ (v : String) (allowed : List String),
      ParseErr.invalidGenre "jazz" ["rock", "pop"] = ParseErr.invalidGenre v allowed →
      ∃ a b : List Char,
        (correction_content (errText (ParseErr.invalidGenre "jazz" ["rock", "pop"]))).data =
          a ++ v.data ++ b) :=
  c7_correction_step (fun _ => Except.ok "\x7b\"reason\": \"x\", \"fundamental_genre\": \"jazz\"\x7d")
    ["rock", "pop"] ⟨some "", [⟨Role.user, "hi"⟩]⟩ 0
    "\x7b\"reason\": \"x\", \"fundamental_genre\": \"jazz\"\x7d"
    (ParseErr.invalidGenre "jazz" ["rock", "pop"]) rfl (by rfl)

/-- **C3, counterexample.** With a backend whose chat call fails, the
batch loop does not record the failing item and continue: the error
propagates out of `classify_genres` (there is no handler around
`llm.json_prompt(prompt)`), so no outcome mapping is produced at all. -/
theorem c3_batch_transport_counterexample :
    classify_genres (fun _ => Except.error "backend unreachable") ["a", "b"] ["rock"] =
      Except.error "backend unreachable" ∧
    ¬ ∃ d, classify_genres (fun _ => Except.error "backend unreachable")
      ["a", "b"] ["rock"] = Except.ok d := by
  constructor
  · rfl
  · rintro ⟨d, h⟩
    rw [show classify_genres (fun _ => Except.error "backend unreachable")
        ["a", "b"] ["rock"] = Except.error "backend unreachable" from rfl] at h
    exact Except.noConfusion h

/-- **C3, amended.** A transport failure is not retried by the
connector, consumes no retry budget, and propagates to the caller as a
distinct error kind; the batch loop does not catch it, so the error
propagates out of `classify_genres` and aborts the batch. -/
theorem c3_transport_propagation :
    (∀ (backend : List Message → Except String String) (genres : List String)
      (p : JsonPrompt) (n : Nat) (e : String),
      backend p.build_prompt = Except.error e →
      json_prompt backend genres p (n + 1) = Except.error e) ∧
    (∀ (backend : List Message → Except String String)
      (fund : List String) (genre : String) (rest : List String) (e : String),
      json_prompt backend fund (initial_prompt fund genre) 20 = Except.error e →
      classify_genres backend (genre :: rest) fund = Except.error e) := by
  constructor
  · intro backend genres p n e h
    simp [json_prompt, h]
  · intro backend fund genre rest e h
    simp [classify_genres, classifyGo, h]

/-- Witness for C3 (amended): a concrete backend raising `boom`. -/
theorem c3_transport_propagation_witness :
    json_prompt (fun _ => Except.error "boom") [] ⟨some "", []⟩ (0 + 1) =
      Except.error "boom" ∧
    classify_genres (fun _ => Except.error "boom") ["a", "b"] ["rock"] =
      Except.error "boom" :=
  ⟨c3_transport_propagation.1 (fun _ => Except.error "boom") [] ⟨some "", []⟩ 0 "boom" rfl,
   c3_transport_propagation.2 (fun _ => Except.error "boom") ["rock"] "a" ["b"] "boom" (by rfl)⟩

/-- **C4, counterexample.** `ROCK` differs from the permitted label
`Rock` only in letter case, yet validation rejects it: the code
lower-cases the response value but compares it verbatim against the
permitted set, so a non-lowercase permitted label can never match. -/
theorem c4_case_insensitive_counterexample :
    strLower "ROCK" = strLower "Rock" ∧
    ("Rock" ∈ (["Rock"] : List String)) ∧
    validate_fundamental_genre ["Rock"] "ROCK" =
      Except.error (ParseErr.invalidGenre "rock" ["Rock"]) :=
  ⟨by decide, by decide, by rfl⟩

/-- **C4, amended.** Validation lower-cases the extracted value and
succeeds exactly when the lowered value is literally in the permitted
set; when every permitted label is lowercase this coincides with
case-insensitive exact match; and a `ROCK` response yields `rock`
whenever `rock` is permitted. -/
theorem c4_validation_amended :
    ∀ (genres : List String) (v : String),
      (validate_fundamental_genre genres v = Except.ok (strLower v) ↔
        strLower v ∈ genres) ∧
      (strLower v ∉ genres →
        validate_fundamental_genre genres v =
          Except.error (ParseErr.invalidGenre (strLower v) genres)) ∧
      ((∀ g ∈ genres, strLower g = g) →
        ((∃ out, validate_fundamental_genre genres v = Except.ok out) ↔
          ∃ g ∈ genres, strLower v = strLower g)) ∧
      ("rock" ∈ genres →
        parse_response genres
          "blah blah \x7b\"reason\": \"x\", \"fundamental_genre\": \"ROCK\"\x7d trailing" =
          Except.ok ⟨"x", "rock"⟩) := by
  intro genres v
  refine ⟨?_, ?_, ?_, ?_⟩
  · by_cases h : strLower v ∈ genres
    · simp [validate_fundamental_genre, h]
    · simp [validate_fundamental_genre, h]
  · intro h
    simp [validate_fundamental_genre, h]
  · intro hlow
    constructor
    · rintro ⟨out, hout⟩
      by_cases h : strLower v ∈ genres
      · exact ⟨strLower v, h, (hlow _ h).symm⟩
      · simp [validate_fundamental_genre, h] at hout
    · rintro ⟨g, hg, heq⟩
      have hmem : strLower v ∈ genres := by
        rw [heq, hlow g hg]
        exact hg
      exact ⟨strLower v, by simp [validate_fundamental_genre, hmem]⟩
  · intro hrock
    have h1 : extractBraceSpan
        (normalizeAmp
          "blah blah \x7b\"reason\": \"x\", \"fundamental_genre\": \"ROCK\"\x7d trailing").data =
        some "\x7b\"reason\": \"x\", \"fundamental_genre\": \"ROCK\"\x7d".data := by rfl
    have h2 : parseJsonObj "\x7b\"reason\": \"x\", \"fundamental_genre\": \"ROCK\"\x7d".data =
        some [("reason", "x"), ("fundamental_genre", "ROCK")] := by rfl
    simp only [parse_response]
    rw [h1]
    simp only [model_validate_json]
    rw [h2]
    show (match validate_fundamental_genre genres "ROCK" with
        | Except.ok lowered => Except.ok (ClassifyGenreOutput.mk "x" lowered)
        | Except.error e => Except.error e) =
      Except.ok (ClassifyGenreOutput.mk "x" "rock")
    have h5 : validate_fundamental_genre genres "ROCK" = Except.ok "rock" := by
      have hl : strLower "ROCK" = "rock" := by rfl
      simp [validate_fundamental_genre, hl, hrock]
    rw [h5]

/-- Witness for C4 (amended): the permitted set `[rock]` and the value
`ROCK`. -/
theorem c4_validation_amended_witness :
    validate_fundamental_genre ["rock"] "ROCK" = Except.ok (strLower "ROCK") ∧
    parse_response ["rock"]
      "blah blah \x7b\"reason\": \"x\", \"fundamental_genre\": \"ROCK\"\x7d trailing" =
      Except.ok ⟨"x", "rock"⟩ :=
  ⟨(c4_validation_amended ["rock"] "ROCK").1.mpr (by decide),
   (c4_validation_amended ["rock"] "ROCK").2.2.2 (by decide)⟩

/-- **C9.** `build_prompt` returns the synthesized system message
prepended to the stored conversation and is a pure function of the
prompt state (so repeated renders without appends agree and the stored
`msgs` list is untouched); moreover the extraction loop only ever
appends assistant and user messages, so the system message is never
stored in the conversation. -/
theorem c9_build_prompt_frame :
    (∀ p : JsonPrompt,
      p.build_prompt = Message.mk Role.system system_msg_content :: p.msgs) ∧
    (∀ (backend : List Message → Except String String) (genres : List String)
      (p : JsonPrompt) (n : Nat) (r : JPResult),
      json_prompt backend genres p n = Except.ok r →
      ∃ t, r.prompt.msgs = p.msgs ++ t ∧
        r.prompt.system_prompt = p.system_prompt ∧
        ∀ m ∈ t, m.role ≠ Role.system) := by
  constructor
  · intro p
    rfl
  · intro backend genres p n
    induction n generalizing p with
    | zero =>
      intro r h
      rw [show json_prompt backend genres p 0 = Except.ok ⟨p, 0, none⟩ from rfl] at h
      injection h with h
      subst h
      exact ⟨[], by simp, rfl, by simp⟩
    | succ n ih =>
      intro r h
      cases hb : backend p.build_prompt with
      | error e =>
        simp only [json_prompt, hb] at h
        exact Except.noConfusion h
      | ok resp =>
        cases hp : parse_response genres resp with
        | ok out =>
          simp only [json_prompt, hb, hp] at h
          injection h with h
          subst h
          refine ⟨[⟨Role.assistant, resp⟩], by simp [JsonPrompt.add_msg], rfl, ?_⟩
          intro m hm
          simp only [List.mem_singleton] at hm
          subst hm
          simp
        | error err =>
          simp only [json_prompt, hb, hp] at h
          cases hrec : json_prompt backend genres
              ((p.add_msg ⟨Role.assistant, resp⟩).add_msg
                ⟨Role.user, correction_content (errText err)⟩) n with
          | error e => rw [hrec] at h; simp at h
          | ok r' =>
            rw [hrec] at h
            injection h with h
            subst h
            obtain ⟨t', ht', hsp, hroles⟩ := ih _ r' hrec
            refine ⟨⟨Role.assistant, resp⟩ :: ⟨Role.user,
              correction_content (errText err)⟩ :: t', ?_, ?_, ?_⟩
            · simp only [JsonPrompt.add_msg] at ht'
              simp [ht', List.append_assoc]
            · simpa [JsonPrompt.add_msg] using hsp
            · intro m hm
              simp only [List.mem_cons] at hm
              rcases hm with rfl | rfl | hm
              · simp
              · simp
              · exact hroles m hm

/-- Witness for C9: a concrete successful run (budget 1) appends only
the assistant response. -/
theorem c9_build_prompt_frame_witness :
    ∃ t, (JPResult.mk
        ⟨some "", [⟨Role.user, "hi"⟩,
          ⟨Role.assistant, "\x7b\"reason\": \"r\", \"fundamental_genre\": \"rock\"\x7d"⟩]⟩
        1 (some ⟨"r", "rock"⟩)).prompt.msgs =
      ([⟨Role.user, "hi"⟩] : List Message) ++ t ∧
      (JPResult.mk
        ⟨some "", [⟨Role.user, "hi"⟩,
          ⟨Role.assistant, "\x7b\"reason\": \"r\", \"fundamental_genre\": \"rock\"\x7d"⟩]⟩
        1 (some ⟨"r", "rock"⟩)).prompt.system_prompt = some "" ∧
      ∀ m ∈ t, m.role ≠ Role.system :=
  c9_build_prompt_frame.2
    (fun _ => Except.ok "\x7b\"reason\": \"r\", \"fundamental_genre\": \"rock\"\x7d")
    ["rock"] ⟨some "", [⟨Role.user, "hi"⟩]⟩ 1
    (JPResult.mk
      ⟨some "", [⟨Role.user, "hi"⟩,
        ⟨Role.assistant, "\x7b\"reason\": \"r\", \"fundamental_genre\": \"rock\"\x7d"⟩]⟩
      1 (some ⟨"r", "rock"⟩))
    (by rfl)

/-- With a backend that never raises a transport error, the retry loop
always returns normally (success or `None`), whatever the parse
outcomes. -/
theorem json_prompt_total (backend : List Message → Except String String)
    (genres : List String) (H : ∀ msgs, ∃ r, backend msgs = Except.ok r) :
    ∀ (n : Nat) (p : JsonPrompt), ∃ r, json_prompt backend genres p n = Except.ok r := by
  intro n
  induction n with
  | zero => intro p; exact ⟨⟨p, 0, none⟩, rfl⟩
  | succ n ih =>
    intro p
    obtain ⟨resp, hb⟩ := H p.build_prompt
    cases hp : parse_response genres resp with
    | ok out =>
      exact ⟨⟨p.add_msg ⟨Role.assistant, resp⟩, 1, some out⟩, by
        simp [json_prompt, hb, hp]⟩
    | error err =>
      obtain ⟨r', hr'⟩ := ih ((p.add_msg ⟨Role.assistant, resp⟩).add_msg
        ⟨Role.user, correction_content (errText err)⟩)
      exact ⟨⟨r'.prompt, r'.calls + 1, r'.output⟩, by
        simp [json_prompt, hb, hp, hr']⟩

theorem dictKeys_dictInsert (d : List (String × Option String)) (k : String)
    (v : Option String) :
    dictKeys (dictInsert d k v) =
      if d.any (fun p => p.1 = k) then dictKeys d else dictKeys d ++ [k] := by
  by_cases h : d.any (fun p => p.1 = k)
  · simp only [dictInsert, h, if_true, dictKeys, List.map_map]
    apply List.map_congr_left
    intro p _
    by_cases hp : p.1 = k
    · simp [hp]
    · simp [hp]
  · simp [dictInsert, h, dictKeys]

theorem mem_dictKeys_dictInsert (d : List (String × Option String)) (k : String)
    (v : Option String) (g : String) :
    g ∈ dictKeys (dictInsert d k v) ↔ g ∈ dictKeys d ∨ g = k := by
  rw [dictKeys_dictInsert]
  by_cases h : d.any (fun p => p.1 = k)
  · simp only [h, if_true]
    constructor
    · exact Or.inl
    · rintro (hg | rfl)
      · exact hg
      · obtain ⟨p, hp, hpk⟩ := List.any_eq_true.mp h
        simp only [decide_eq_true_eq] at hpk
        exact hpk ▸ List.mem_map_of_mem (fun q => q.1) hp
  · simp [h]

theorem nodup_dictKeys_dictInsert (d : List (String × Option String)) (k : String)
    (v : Option String) (h : (dictKeys d).Nodup) :
    (dictKeys (dictInsert d k v)).Nodup := by
  rw [dictKeys_dictInsert]
  split
  · exact h
  · next ha =>
    have hk : k ∉ dictKeys d := by
      intro hmem
      obtain ⟨p, hp, hpk⟩ := List.mem_map.mp hmem
      exact ha (List.any_eq_true.mpr ⟨p, hp, by simp [hpk]⟩)
    refine List.nodup_append.mpr ⟨h, List.nodup_singleton _, ?_⟩
    simpa [List.disjoint_singleton] using hk

/-- The loop invariant for C2: with a transport-error-free backend the
loop returns a dict whose keys are the starting keys plus the processed
genres, with no duplicate keys introduced. -/
theorem classifyGo_coverage (backend : List Message → Except String String)
    (fund : List String) (H : ∀ msgs, ∃ r, backend msgs = Except.ok r) :
    ∀ (gs : List String) (d : List (String × Option String)),
      ∃ d', classifyGo backend fund gs d = Except.ok d' ∧
        (∀ g, g ∈ dictKeys d' ↔ g ∈ dictKeys d ∨ g ∈ gs) ∧
        ((dictKeys d).Nodup → (dictKeys d').Nodup) := by
  intro gs
  induction gs with
  | nil =>
    intro d
    exact ⟨d, rfl, by simp, fun h => h⟩
  | cons genre rest ih =>
    intro d
    obtain ⟨r, hr⟩ := json_prompt_total backend fund H 20 (initial_prompt fund genre)
    obtain ⟨d', hd', hmem, hnd⟩ :=
      ih (dictInsert d genre ((r.output).map (fun o => o.fundamental_genre)))
    refine ⟨d', by simp [classifyGo, hr, hd'], ?_, ?_⟩
    · intro g
      rw [hmem g, mem_dictKeys_dictInsert]
      simp only [List.mem_cons]
      tauto
    · intro h
      exact hnd (nodup_dictKeys_dictInsert _ _ _ h)

/-- **C2.** As long as the backend raises no transport error (parse
failures and retry exhaustion included), `classify_genres` returns a
mapping with exactly one entry per input genre — the extracted label or
the explicit `None` marker — with no duplicate keys and no omissions;
one item's exhaustion never aborts the batch. -/
theorem c2_outcome_coverage :
    ∀ (backend : List Message → Except String String)
      (all_genres fundamental_genres : List String),
      (∀ msgs, ∃ r, backend msgs = Except.ok r) →
      ∃ d, classify_genres backend all_genres fundamental_genres = Except.ok d ∧
        (dictKeys d).Nodup ∧
        (∀ g, g ∈ dictKeys d ↔ g ∈ all_genres) := by
  intro backend all_genres fund H
  obtain ⟨d, hd, hmem, hnd⟩ := classifyGo_coverage backend fund H all_genres []
  refine ⟨d, hd, hnd (by simp [dictKeys]), ?_⟩
  intro g
  rw [hmem g]
  simp [dictKeys]

/-- Witness for C2: two genres against an always-unparsable backend —
both get the explicit failure marker, neither aborts the batch. -/
theorem c2_outcome_coverage_witness :
    ∃ d, classify_genres (fun _ => Except.ok "nope") ["a", "b"] ["rock"] =
        Except.ok d ∧
      (dictKeys d).Nodup ∧
      (∀ g, g ∈ dictKeys d ↔ g ∈ (["a", "b"] : List String)) :=
  c2_outcome_coverage (fun _ => Except.ok "nope") ["a", "b"] ["rock"]
    (fun _ => ⟨"nope", rfl⟩)

/-- **C10.** `load_history` always returns the loaded song spans in
non-decreasing order of `ts`, whatever the order of files and of records
inside them; the result is a permutation of the records of the `.json`
files. -/
theorem c10_load_history_sorted :
    ∀ dir : List (String × List SpotifySongSpan),
      (load_history dir).Pairwise
        (fun a b : SpotifySongSpan => a.ts ≤ b.ts) ∧
      (load_history dir).Perm
        (((dir.filter (fun f => f.1.endsWith ".json")).map (fun f => f.2)).flatten) := by
  intro dir
  constructor
  · have hs : (((dir.filter (fun f => f.1.endsWith ".json")).map
        (fun f => f.2)).flatten.mergeSort
          (fun a b : SpotifySongSpan => a.ts ≤ b.ts)).Pairwise
        (fun a b : SpotifySongSpan => (a.ts ≤ b.ts : Bool)) := by
      apply List.sorted_mergeSort
      · intro a b c hab hbc
        simp only [decide_eq_true_eq] at hab hbc ⊢
        omega
      · intro a b
        simp only [Bool.or_eq_true, decide_eq_true_eq]
        exact Nat.le_total a.ts b.ts
    have : (load_history dir).Pairwise
        (fun a b : SpotifySongSpan => (a.ts ≤ b.ts : Bool)) := hs
    exact this.imp (fun h => by simpa using h)
  · exact List.mergeSort_perm _ _

end BetterSpotifyWrapped
